import Mathlib

/-!
Verification of the mirage media pipeline (src/src/mirage/main.py and
src/src/mirage/planner.py) against its natural-language specification.

The Python source is shallowly embedded: pure computations become Lean
functions over `String`, `List` and `ℚ` (Python floats are modelled as exact
rationals; all concrete values appearing in the claims are exactly
representable binary floats, so the arithmetic agrees); calls to external
processes and to the network are modelled by passing their observable
outcomes as explicit parameters.
-/

namespace Mirage

/-- ASCII whitespace as recognised by Python's `\s` regex class and
`str.strip()` (space, tab, newline, carriage return, vertical tab, form
feed). The program only ever feeds ASCII-ish script text through these
paths. -/
def isPySpace (c : Char) : Bool :=
  c == ' ' || c == '\t' || c == '\n' || c == '\r' || c == '\x0b' || c == '\x0c'

/-- `str.strip()` on a list of characters: drop whitespace from both ends. -/
def stripList (l : List Char) : List Char :=
  ((l.dropWhile isPySpace).reverse.dropWhile isPySpace).reverse

/-- Python `str.strip()`. -/
def pyStrip (s : String) : String :=
  ⟨stripList s.data⟩

/-- The sentence-ending punctuation of the regex `(?<=[.!?])\s+`. -/
def isPunct (c : Char) : Bool :=
  c == '.' || c == '!' || c == '?'

/-- Core of `re.split(r'(?<=[.!?])\s+', text)` (main.py line 405): scan the
text; a maximal whitespace run immediately preceded by `.`, `!` or `?` is a
separator. `skip` is true while we are consuming the remainder of a
separator's whitespace run (the sentence preceding it has already been
emitted); `prevPunct` records whether the previously consumed character was
sentence-ending punctuation; `cur` is the current sentence accumulated in
reverse. -/
def splitGo (skip prevPunct : Bool) (cur : List Char) : List Char → List (List Char)
  | [] => [cur.reverse]
  | c :: rest =>
    if skip then
      if isPySpace c then splitGo true false cur rest
      else splitGo false (isPunct c) (c :: cur) rest
    else if prevPunct && isPySpace c then
      cur.reverse :: splitGo true false [] rest
    else
      splitGo false (isPunct c) (c :: cur) rest

/-- `re.split(r'(?<=[.!?])\s+', text)` from main.py line 405. -/
def splitSentences (text : String) : List String :=
  (splitGo false false [] text.data).map fun cs => ⟨cs⟩

/-- The greedy accumulation loop of main.py lines 406-416:

    chunks = []; current_chunk = ""
    for s in sentences:
        if len(chunks) < 2:
            current_chunk += s + " "
            if len(current_chunk) > 50:
                chunks.append(current_chunk.strip()); current_chunk = ""
        else:
            current_chunk += s + " "

Returns the pair (chunks, current_chunk) after the loop. -/
def chunkGo (chunks : List String) (cur : String) : List String → List String × String
  | [] => (chunks, cur)
  | s :: rest =>
    if chunks.length < 2 then
      let cur2 := cur ++ s ++ " "
      if cur2.length > 50 then chunkGo (chunks ++ [pyStrip cur2]) "" rest
      else chunkGo chunks cur2 rest
    else chunkGo chunks (cur ++ s ++ " ") rest

/-- Chunks after the loop plus the final `chunks.append(current_chunk.strip())`
of main.py line 416. -/
def rawChunks (text : String) : List String :=
  let acc := chunkGo [] "" (splitSentences text)
  acc.1 ++ [pyStrip acc.2]

/-- The script segmenter of `cmd_story` (main.py lines 405-420): greedy
accumulation, then `while len(chunks) < 3: chunks.append("...")` and
`chunks = chunks[:3]`. -/
def segment (text : String) : List String :=
  (rawChunks text ++ List.replicate (3 - (rawChunks text).length) ("...")).take 3

/-! ### Crossfade stitcher (main.py lines 462-507) -/

/-- The offset accumulation of the stitch loop (main.py lines 480-487):
for each `i` in `1..N-1`, `offset += durations[i-1] - fade_duration`, and the
`i`-th crossfade is placed at the resulting `offset`. Fed with
`durations.dropLast` (entries `0..N-2`), returns the successive values taken
by `offset`. -/
def offsetLoop (off fade : ℚ) : List ℚ → List ℚ
  | [] => []
  | d :: rest =>
    let off2 := off + d - fade
    off2 :: offsetLoop off2 fade rest

/-- All clip start offsets in the merged timeline: clip 0 starts at 0, and
clip `i` starts at the offset computed by the stitch loop. -/
def stitchOffsets (durations : List ℚ) (fade : ℚ) : List ℚ :=
  0 :: offsetLoop 0 fade durations.dropLast

/-- One `xfade=transition=fade:duration=..:offset=..` video filter step of
main.py line 486: consumes stream labels `src1` (the accumulated chain) and
`src2` (the next raw input `i:v`), producing label `out` (`v{i}`). -/
structure XFade where
  src1 : String
  src2 : String
  dur : ℚ
  offset : ℚ
  out : String
deriving DecidableEq

/-- One `acrossfade=d=..:c1=tri:c2=tri` audio filter step of main.py
line 491: consumes labels `src1` (accumulated chain) and `src2` (`i:a`),
producing `out` (`a{i}`). `acrossfade` takes no offset parameter; its
transition implicitly starts `d` seconds before the accumulated input
ends. -/
structure AXFade where
  src1 : String
  src2 : String
  d : ℚ
  out : String
deriving DecidableEq

/-- The filter-building loop of main.py lines 473-492, started at `i = 1`
with `v_accum = "0:v"`, `a_accum = "0:a"`, `offset = 0.0`, and iterating once
per element of `durations.dropLast` (i.e. `prev_dur = durations[i-1]`).
Returns (video filters, audio filters, final `v_accum`, final `a_accum`). -/
def buildFilters (i : ℕ) (vAcc aAcc : String) (off fade : ℚ) :
    List ℚ → List XFade × List AXFade × String × String
  | [] => ([], [], vAcc, aAcc)
  | d :: rest =>
    let off2 := off + d - fade
    let vOut := "v" ++ toString i
    let aOut := "a" ++ toString i
    let r := buildFilters (i + 1) vOut aOut off2 fade rest
    (⟨vAcc, toString i ++ ":v", fade, off2, vOut⟩ :: r.1,
     ⟨aAcc, toString i ++ ":a", fade, aOut⟩ :: r.2.1,
     r.2.2.1, r.2.2.2)

/-- The stitch command assembled at main.py lines 496-505: a direct stream
copy (`-c copy`) when there is exactly one clip, otherwise a re-encoding
command (`-c:v libx264 -pix_fmt yuv420p`) carrying the crossfade filter
graph and mapping the final accumulated video/audio labels. -/
inductive StitchCmd where
  | copy (input output : String)
  | xfade (inputs : List String) (vFilters : List XFade) (aFilters : List AXFade)
      (vMap aMap : String) (output : String)
deriving DecidableEq

/-- main.py lines 465-505: probe-derived `durations`, `fade_duration = 0.5`
are supplied; builds the filter graph and selects the branch on
`len(video_parts) == 1`. -/
def stitchCommand (parts : List String) (durations : List ℚ) (fade : ℚ)
    (output : String) : StitchCmd :=
  match parts with
  | [p] => StitchCmd.copy p output
  | _ =>
    let r := buildFilters 1 ("0:v") ("0:a") 0 fade durations.dropLast
    StitchCmd.xfade parts r.1 r.2.1 r.2.2.1 r.2.2.2 output

/-- Whether a stitch command is the single-clip direct-copy branch. -/
def StitchCmd.isCopy : StitchCmd → Bool
  | StitchCmd.copy _ _ => true
  | StitchCmd.xfade _ _ _ _ _ _ => false

/-- The clip start offsets a stitch command realises: 0 for the first clip,
then each video crossfade's `offset` parameter. A copy command has a single
clip starting at 0. -/
def StitchCmd.offsets : StitchCmd → List ℚ
  | StitchCmd.copy _ _ => [0]
  | StitchCmd.xfade _ vs _ _ _ _ => 0 :: vs.map XFade.offset

/-! ### Sequential story pipeline (main.py lines 435-507) -/

/-- One observable external action of `cmd_story`'s production loop. -/
inductive Event where
  | render (prompt srcImage outClip : String)
  | extractFrame (srcClip outFrame : String)
  | stitch (cmd : StitchCmd)
deriving DecidableEq

/-- `speaker_desc = character_desc if character_desc else "The character"`
(main.py line 449). -/
def speakerDesc (characterDesc : Option String) : String :=
  match characterDesc with
  | some d => d
  | none => "The character"

/-- The render prompt for one chunk (main.py lines 446-450): the chunk with
quote characters stripped, spliced into the speaking-character template. -/
def promptFor (characterDesc : Option String) (chunk : String) : String :=
  let cleanChunk := (chunk.replace ("\x27") ("")).replace ("\x22") ("")
  speakerDesc characterDesc ++ " speaking: \x27" ++ cleanChunk ++ "\x27, vertical 9:16"

/-- The per-segment loop of main.py lines 439-460: for each chunk, render
`part{i+1}.mp4` from the current source image with a prompt built from the
quote-stripped chunk; if `i < 2`, extract the clip's last frame into
`frame{i+1}.png` and make it the next segment's source image. Returns the
events and the collected `video_parts`. -/
def segLoop (characterDesc : Option String) (i : ℕ) (curImage : String) :
    List String → List Event × List String
  | [] => ([], [])
  | chunk :: rest =>
    let partVideo := "part" ++ toString (i + 1) ++ ".mp4"
    let prompt := promptFor characterDesc chunk
    if i < 2 then
      let nextImage := "frame" ++ toString (i + 1) ++ ".png"
      let r := segLoop characterDesc (i + 1) nextImage rest
      (Event.render prompt curImage partVideo ::
         Event.extractFrame partVideo nextImage :: r.1,
       partVideo :: r.2)
    else
      let r := segLoop characterDesc (i + 1) curImage rest
      (Event.render prompt curImage partVideo :: r.1, partVideo :: r.2)

/-- `cmd_story` after script generation (main.py lines 404-507): segment the
script into exactly 3 chunks, run the per-segment loop starting from the base
character image, probe every rendered part's duration (`durOf` models
`get_duration` on each concrete file) and run the stitch command with
`fade_duration = 0.5`. -/
def cmd_story_events (script : String) (characterDesc : Option String)
    (durOf : String → ℚ) : List Event :=
  let chunks := segment script
  let r := segLoop characterDesc 0 ("base_char.png") chunks
  r.1 ++ [Event.stitch (stitchCommand r.2 (r.2.map durOf) (1/2) ("Mirage_Story_Final.mp4"))]

/-- The rendered-clip outputs of an event list, in order. -/
def renderOuts (evs : List Event) : List String :=
  evs.filterMap fun e =>
    match e with
    | Event.render _ _ outClip => some outClip
    | _ => none

/-- The render source images of an event list, in order. -/
def renderSrcs (evs : List Event) : List String :=
  evs.filterMap fun e =>
    match e with
    | Event.render _ src _ => some src
    | _ => none

/-- The (source clip, output frame) pairs of the frame extractions, in
order. -/
def extractPairs (evs : List Event) : List (String × String) :=
  evs.filterMap fun e =>
    match e with
    | Event.extractFrame src outF => some (src, outF)
    | _ => none

/-- The stitch commands issued, in order. -/
def stitchCmds (evs : List Event) : List StitchCmd :=
  evs.filterMap fun e =>
    match e with
    | Event.stitch c => some c
    | _ => none

/-! ### Media probe (main.py lines 50-64) -/

/-- Observable outcome of the `ffprobe` subprocess in `get_audio_duration`:
either `subprocess.run(..., check=True)` raised `CalledProcessError` (tool
error, e.g. a missing or corrupt file), or it succeeded with the given
standard output. -/
inductive ProbeOutcome where
  | toolError
  | probed (stdout : String)
deriving DecidableEq

/-- `get_audio_duration` (main.py lines 50-64): on success parse
`float(result.stdout.strip())`; `pyFloat` models Python's `float()` builtin,
returning `none` where `float()` raises `ValueError` (unparsable numeric
output). Both `CalledProcessError` and `ValueError` are caught and replaced
by the fixed fallback of 60.0 seconds; the function never raises. -/
def get_audio_duration (pyFloat : String → Option ℚ) : ProbeOutcome → ℚ
  | ProbeOutcome.toolError => 60
  | ProbeOutcome.probed s =>
    match pyFloat (pyStrip s) with
    | some q => q
    | none => 60

/-! ### External tool gateway (main.py lines 23-48) -/

/-- Python's `subprocess.CalledProcessError` as raised by
`subprocess.run(..., check=True)`: when the streams were captured
(`stdout=PIPE, stderr=PIPE`) the exception carries them; otherwise its
`stdout`/`stderr` attributes are `None`. -/
structure CalledProcessError where
  returncode : ℤ
  stdout : Option String
  stderr : Option String
deriving DecidableEq

/-- `run_command` (main.py lines 23-48): runs the command with
`check=True`; with `quiet` the child's streams are captured
(`stdout=subprocess.PIPE, stderr=subprocess.PIPE`), without it the child
inherits the caller's streams and nothing is captured. On a non-zero exit
the `CalledProcessError` is printed (with both captured streams together
when `quiet`) and re-raised unchanged. `returncode`, `childOut`, `childErr`
are the child process's observable exit code and stream contents. -/
def run_command (quiet : Bool) (returncode : ℤ) (childOut childErr : String) :
    Except CalledProcessError Unit :=
  if returncode = 0 then Except.ok ()
  else
    Except.error
      ⟨returncode,
       if quiet then some childOut else none,
       if quiet then some childErr else none⟩

/-! ### Structured story planner (planner.py lines 13-146) -/

/-- A JSON value, the possible results of Python's `json.loads`. -/
inductive JValue where
  | jnull
  | jbool (b : Bool)
  | jnum (q : ℚ)
  | jstr (s : String)
  | jarr (elems : List JValue)
  | jobj (fields : List (String × JValue))

/-- The fallback plan returned by the `except` handler of
`generate_story_plan` (planner.py lines 139-145). -/
def fallbackPlan (topic : String) : JValue :=
  JValue.jarr [JValue.jobj
    [(("narration"),
      JValue.jstr (("I attempted to tell a story about ") ++ topic ++
        (", but the plans were lost in the ether."))),
     (("visual_prompt"),
      JValue.jstr (("Static and glitching digital screen with the words \x27") ++
        topic ++ ("\x27"))),
     (("voice_direction"), JValue.jstr ("Apologetic robot"))]]

/-- `generate_story_plan` (planner.py lines 13-146). The credential lookup
(environment, then the config-file scan) is summarised by `apiKey`; with no
credential the `ValueError` at line 32 propagates (modelled as
`Except.error`). Everything inside the `try` block — the network call,
the `result["candidates"][0]["content"]["parts"][0]["text"]` shape access,
the markdown-fence cleanup and `json.loads` — is summarised by `tryResult`:
`Except.ok v` when `json.loads` produced the JSON value `v` (which is then
returned unvalidated), `Except.error ()` when any exception was raised
inside the block (all are caught, and the fixed fallback plan is
returned). -/
def generate_story_plan (apiKey : Option String) (topic : String)
    (tryResult : Except Unit JValue) : Except String JValue :=
  match apiKey with
  | none => Except.error ("GOOGLE_API_KEY not found in environment or config.")
  | some _ =>
    match tryResult with
    | Except.ok plan => Except.ok plan
    | Except.error _ => Except.ok (fallbackPlan topic)

/-- Field lookup in a JSON object, as `entry["voice_direction"]` would
observe it. -/
def jField (v : JValue) (key : String) : Option JValue :=
  match v with
  | JValue.jobj fields => (fields.find? fun f => f.1 == key).map fun f => f.2
  | _ => none

/-- Whether a JSON value is a plan entry with the three string fields
`narration`, `visual_prompt`, `voice_direction`. -/
def wellFormedEntry (v : JValue) : Prop :=
  (∃ s, jField v ("narration") = some (JValue.jstr s)) ∧
  (∃ s, jField v ("visual_prompt") = some (JValue.jstr s)) ∧
  (∃ s, jField v ("voice_direction") = some (JValue.jstr s))

/-- The video crossfade chain shape: starting from accumulated label `acc`
at index `i`, each filter consumes the accumulated label and the raw input
`i:v`, and produces `v{i}`, which becomes the next accumulated label. -/
def vchainB (acc : String) (i : ℕ) : List XFade → Bool
  | [] => true
  | f :: fs =>
    (f.src1 == acc) && (f.src2 == toString i ++ ":v") &&
      (f.out == "v" ++ toString i) && vchainB f.out (i + 1) fs

/-- The audio crossfade chain shape: each filter consumes the accumulated
label and the raw input `i:a`, producing `a{i}`. -/
def achainB (acc : String) (i : ℕ) : List AXFade → Bool
  | [] => true
  | f :: fs =>
    (f.src1 == acc) && (f.src2 == toString i ++ ":a") &&
      (f.out == "a" ++ toString i) && achainB f.out (i + 1) fs

/-- A character list containing at least one non-whitespace character. -/
def hasContent (l : List Char) : Prop :=
  ∃ c ∈ l, isPySpace c = false

/-- The final accumulated chunk of the segmenter: what remains in
`current_chunk` after the greedy loop, stripped when appended at main.py line
416. It is the last element of `rawChunks`. -/
def remainderChunk (text : String) : String :=
  pyStrip (chunkGo [] "" (splitSentences text)).2

/-! ### Helper lemmas -/

lemma getD_dropLast {α : Type} (d : α) :
    ∀ (l : List α) (i : ℕ), i + 1 < l.length → l.dropLast.getD i d = l.getD i d := by
  intro l
  induction l with
  | nil => intro i h; simp at h
  | cons a l' ih =>
    intro i h
    cases l' with
    | nil =>
      simp only [List.length_cons, List.length_nil] at h
      omega
    | cons b l'' =>
      cases i with
      | zero => simp [List.dropLast_cons₂]
      | succ j =>
        have h' : j + 1 < (b :: l'').length := by
          simp only [List.length_cons] at h ⊢
          omega
        simpa [List.dropLast_cons₂] using ih j h'

lemma segment_length (text : String) : (segment text).length = 3 := by
  simp only [segment, List.length_take, List.length_append, List.length_replicate]
  omega

lemma buildFilters_spec :
    ∀ (ds : List ℚ) (i : ℕ) (vAcc aAcc : String) (off fade : ℚ),
      (buildFilters i vAcc aAcc off fade ds).1.length = ds.length ∧
      (buildFilters i vAcc aAcc off fade ds).2.1.length = ds.length ∧
      vchainB vAcc i (buildFilters i vAcc aAcc off fade ds).1 = true ∧
      achainB aAcc i (buildFilters i vAcc aAcc off fade ds).2.1 = true ∧
      (buildFilters i vAcc aAcc off fade ds).1.map XFade.dur =
        List.replicate ds.length fade ∧
      (buildFilters i vAcc aAcc off fade ds).2.1.map AXFade.d =
        List.replicate ds.length fade ∧
      (buildFilters i vAcc aAcc off fade ds).1.map XFade.offset =
        offsetLoop off fade ds := by
  intro ds
  induction ds with
  | nil =>
    intro i vAcc aAcc off fade
    simp [buildFilters, vchainB, achainB, offsetLoop]
  | cons d rest ih =>
    intro i vAcc aAcc off fade
    obtain ⟨h1, h2, h3, h4, h5, h6, h7⟩ :=
      ih (i + 1) ("v" ++ toString i) ("a" ++ toString i) (off + d - fade) fade
    refine ⟨?_, ?_, ?_, ?_, ?_, ?_, ?_⟩ <;>
      simp [buildFilters, vchainB, achainB, offsetLoop, List.replicate_succ,
        h1, h2, h3, h4, h5, h6, h7]

lemma offsetLoop_getD_succ :
    ∀ (ds : List ℚ) (o f : ℚ) (i : ℕ), i + 1 < ds.length →
      (offsetLoop o f ds).getD (i + 1) 0 =
        (offsetLoop o f ds).getD i 0 + ds.getD (i + 1) 0 - f := by
  intro ds
  induction ds with
  | nil => intro o f i h; simp at h
  | cons d rest ih =>
    intro o f i h
    match i with
    | 0 =>
      match rest, h with
      | d1 :: rest', _ => simp [offsetLoop]
    | j + 1 =>
      have h' : j + 1 < rest.length := by simpa using h
      simpa [offsetLoop] using ih (o + d - f) f j h'

lemma length_dropWhile_le (p : Char → Bool) :
    ∀ l : List Char, (l.dropWhile p).length ≤ l.length := by
  intro l
  induction l with
  | nil => simp
  | cons a t ih =>
    by_cases h : p a = true
    · rw [List.dropWhile_cons_of_pos h]
      exact Nat.le_succ_of_le ih
    · rw [List.dropWhile_cons_of_neg (by simp [h])]

lemma mem_dropWhile_of_not (p : Char → Bool) (x : Char) :
    ∀ l : List Char, x ∈ l → p x = false → x ∈ l.dropWhile p := by
  intro l
  induction l with
  | nil => intro h; simp at h
  | cons a t ih =>
    intro hx hpx
    by_cases hpa : p a = true
    · rw [List.dropWhile_cons_of_pos hpa]
      rcases List.mem_cons.mp hx with rfl | hxt
      · rw [hpx] at hpa
        exact absurd hpa (by simp)
      · exact ih hxt hpx
    · rw [List.dropWhile_cons_of_neg (by simp [hpa])]
      exact hx

lemma dropWhile_head_false (p : Char → Bool) :
    ∀ (l : List Char) (c : Char) (t : List Char),
      l.dropWhile p = c :: t → p c = false := by
  intro l
  induction l with
  | nil => intro c t h; simp at h
  | cons a t' ih =>
    intro c t h
    by_cases hpa : p a = true
    · rw [List.dropWhile_cons_of_pos hpa] at h
      exact ih c t h
    · rw [List.dropWhile_cons_of_neg (by simp [hpa])] at h
      have hh := List.cons.inj h
      rw [← hh.1]
      simpa using hpa

lemma stripList_ne_nil {l : List Char} (h : hasContent l) : stripList l ≠ [] := by
  obtain ⟨x, hxl, hx⟩ := h
  have h1 : x ∈ l.dropWhile isPySpace := mem_dropWhile_of_not isPySpace x l hxl hx
  have h2 : x ∈ (l.dropWhile isPySpace).reverse := List.mem_reverse.mpr h1
  have h3 : x ∈ (l.dropWhile isPySpace).reverse.dropWhile isPySpace :=
    mem_dropWhile_of_not isPySpace x _ h2 hx
  have h4 : x ∈ stripList l := List.mem_reverse.mpr h3
  intro hnil
  rw [hnil] at h4
  simp at h4

lemma pyStrip_ne_empty {s : String} (h : hasContent s.data) : pyStrip s ≠ "" := by
  intro he
  have hdata : stripList s.data = [] := congrArg String.data he
  exact stripList_ne_nil h hdata

lemma getLast?_dropWhile (p : Char → Bool) (l : List Char)
    (h : l.dropWhile p ≠ []) : (l.dropWhile p).getLast? = l.getLast? := by
  obtain ⟨t, ht⟩ : l.dropWhile p <:+ l := List.dropWhile_suffix p
  have h2 : l.getLast? = (l.dropWhile p).getLast?.or t.getLast? := by
    conv_lhs => rw [← ht]
    exact List.getLast?_append
  cases hd : (l.dropWhile p).getLast? with
  | none =>
    exact absurd (List.getLast?_eq_none_iff.mp hd) h
  | some y =>
    rw [h2, hd]
    rfl

lemma stripList_length_le (l : List Char) :
    (stripList l).length ≤ (l.dropWhile isPySpace).length := by
  calc (stripList l).length
      = ((l.dropWhile isPySpace).reverse.dropWhile isPySpace).length := by
        simp [stripList]
    _ ≤ (l.dropWhile isPySpace).reverse.length := length_dropWhile_le _ _
    _ = (l.dropWhile isPySpace).length := by simp

/-- A string equal to its own strip starts with a non-whitespace character
(when nonempty). -/
lemma stripped_head {t : String} (hs : pyStrip t = t) (hne : t ≠ "") :
    ∃ c rest, t.data = c :: rest ∧ isPySpace c = false := by
  have hd : stripList t.data = t.data := congrArg String.data hs
  cases hcs : t.data with
  | nil => exact absurd (String.ext hcs) hne
  | cons c rest =>
    by_cases hws : isPySpace c = true
    · exfalso
      have len1 : (t.data.dropWhile isPySpace).length ≤ rest.length := by
        rw [hcs, List.dropWhile_cons_of_pos hws]
        exact length_dropWhile_le _ _
      have len2 := stripList_length_le t.data
      have len3 : (stripList t.data).length = t.data.length := by rw [hd]
      have len4 : t.data.length = rest.length + 1 := by rw [hcs]; simp
      omega
    · exact ⟨c, rest, rfl, by simpa using hws⟩

/-- A string equal to its own strip ends with a non-whitespace character. -/
lemma stripped_last {t : String} (hs : pyStrip t = t) :
    ∀ x, t.data.getLast? = some x → isPySpace x = false := by
  intro x hx
  by_contra hws'
  have hws : isPySpace x = true := by simpa using hws'
  have hd : stripList t.data = t.data := congrArg String.data hs
  have hne : t.data ≠ [] := by
    intro h0
    rw [h0] at hx
    simp at hx
  have hd0ne : t.data.dropWhile isPySpace ≠ [] := by
    intro h0
    have hnil : stripList t.data = [] := by simp [stripList, h0]
    rw [hd] at hnil
    exact hne hnil
  have hlast : (t.data.dropWhile isPySpace).getLast? = some x := by
    rw [getLast?_dropWhile isPySpace t.data hd0ne]
    exact hx
  have hrev : (t.data.dropWhile isPySpace).reverse.head? = some x := by
    rw [List.head?_reverse]
    exact hlast
  obtain ⟨tl, htl⟩ : ∃ tl, (t.data.dropWhile isPySpace).reverse = x :: tl := by
    cases hcons : (t.data.dropWhile isPySpace).reverse with
    | nil => rw [hcons] at hrev; simp at hrev
    | cons y tl =>
      rw [hcons] at hrev
      simp only [List.head?_cons, Option.some.injEq] at hrev
      exact ⟨tl, by rw [hrev]⟩
  have l1 : ((t.data.dropWhile isPySpace).reverse.dropWhile isPySpace).length ≤
      tl.length := by
    rw [htl, List.dropWhile_cons_of_pos hws]
    exact length_dropWhile_le _ _
  have l2 : (stripList t.data).length =
      ((t.data.dropWhile isPySpace).reverse.dropWhile isPySpace).length := by
    simp [stripList]
  have l3 : (t.data.dropWhile isPySpace).length = tl.length + 1 := by
    have hrl : (t.data.dropWhile isPySpace).reverse.length = tl.length + 1 := by
      rw [htl]; simp
    simpa using hrl
  have l4 : (t.data.dropWhile isPySpace).length ≤ t.data.length :=
    length_dropWhile_le _ _
  have l5 : (stripList t.data).length = t.data.length := by rw [hd]
  omega

/-- Every sentence emitted by the splitter scan has a non-whitespace
character, provided the current sentence is guaranteed content (or the next
character starts one), skipping mode still has input left, and the input
does not end in whitespace. -/
lemma splitGo_content :
    ∀ (cs : List Char) (skip prevPunct : Bool) (cur : List Char),
      (skip = false →
        (hasContent cur ∨ ∃ c rest, cs = c :: rest ∧ isPySpace c = false)) →
      (skip = true → cs ≠ []) →
      (∀ x, cs.getLast? = some x → isPySpace x = false) →
      ∀ s ∈ splitGo skip prevPunct cur cs, hasContent s := by
  intro cs
  induction cs with
  | nil =>
    intro skip prevPunct cur h1 h2 h3 s hs
    cases skip with
    | true => exact absurd rfl (h2 rfl)
    | false =>
      rcases h1 rfl with hcur | ⟨c, rest, hcons, -⟩
      · simp only [splitGo, List.mem_singleton] at hs
        obtain ⟨x, hx, hxws⟩ := hcur
        exact hs ▸ ⟨x, List.mem_reverse.mpr hx, hxws⟩
      · exact absurd hcons (by simp)
  | cons c rest ih =>
    intro skip prevPunct cur h1 h2 h3 s hs
    have h3' : ∀ x, rest.getLast? = some x → isPySpace x = false := by
      intro x hx
      apply h3
      cases rest with
      | nil => simp at hx
      | cons y t => rw [List.getLast?_cons_cons]; exact hx
    have hrestne : isPySpace c = true → rest ≠ [] := by
      intro hws h0
      have hcf : isPySpace c = false := h3 c (by subst h0; rfl)
      rw [hws] at hcf
      simp at hcf
    cases skip with
    | true =>
      by_cases hws : isPySpace c = true
      · rw [show splitGo true prevPunct cur (c :: rest) =
            splitGo true false cur rest by simp [splitGo, hws]] at hs
        exact ih true false cur (fun h => nomatch h) (fun _ => hrestne hws) h3' s hs
      · rw [show splitGo true prevPunct cur (c :: rest) =
            splitGo false (isPunct c) (c :: cur) rest by simp [splitGo, hws]] at hs
        refine ih false (isPunct c) (c :: cur) ?_ (fun h => nomatch h) h3' s hs
        intro _
        exact Or.inl ⟨c, List.mem_cons_self c cur, by simpa using hws⟩
    | false =>
      by_cases hsep : (prevPunct && isPySpace c) = true
      · have hws : isPySpace c = true := (Bool.and_eq_true .. ▸ hsep).2
        rw [show splitGo false prevPunct cur (c :: rest) =
            cur.reverse :: splitGo true false [] rest by simp [splitGo, hsep]] at hs
        rcases List.mem_cons.mp hs with rfl | hs'
        · rcases h1 rfl with hcur | ⟨c', rest', hcons, hcws⟩
          · obtain ⟨x, hx, hxws⟩ := hcur
            exact ⟨x, List.mem_reverse.mpr hx, hxws⟩
          · have hcc := (List.cons.inj hcons).1
            rw [← hcc, hws] at hcws
            simp at hcws
        · exact ih true false [] (fun h => nomatch h) (fun _ => hrestne hws) h3' s hs'
      · rw [show splitGo false prevPunct cur (c :: rest) =
            splitGo false (isPunct c) (c :: cur) rest by simp [splitGo, hsep]] at hs
        refine ih false (isPunct c) (c :: cur) ?_ (fun h => nomatch h) h3' s hs
        intro _
        rcases h1 rfl with hcur | ⟨c', rest', hcons, hcws⟩
        · obtain ⟨x, hx, hxws⟩ := hcur
          exact Or.inl ⟨x, List.mem_cons_of_mem c hx, hxws⟩
        · have hcc := (List.cons.inj hcons).1
          exact Or.inl ⟨c, List.mem_cons_self c cur, by rw [hcc]; exact hcws⟩

/-- For a stripped, nonempty input text every sentence produced by
`splitSentences` contains a non-whitespace character. -/
lemma splitSentences_content {t : String} (hs : pyStrip t = t) (hne : t ≠ "") :
    ∀ s ∈ splitSentences t, hasContent s.data := by
  intro s hsm
  simp only [splitSentences, List.mem_map] at hsm
  obtain ⟨cs, hcs, rfl⟩ := hsm
  obtain ⟨c, rest, hdata, hcws⟩ := stripped_head hs hne
  exact splitGo_content t.data false false []
    (fun _ => Or.inr ⟨c, rest, hdata, hcws⟩)
    (fun h => nomatch h)
    (stripped_last hs) cs hcs

/-- If every sentence has content and every already-closed chunk is
nonempty, all chunks closed by the greedy loop are nonempty. -/
lemma chunkGo_closed :
    ∀ (sentences : List String) (chunks : List String) (cur : String),
      (∀ s ∈ sentences, hasContent s.data) →
      (∀ c ∈ chunks, c ≠ "") →
      ∀ c ∈ (chunkGo chunks cur sentences).1, c ≠ "" := by
  intro sentences
  induction sentences with
  | nil =>
    intro chunks cur hsent hchunks c hc
    exact hchunks c hc
  | cons s rest ih =>
    intro chunks cur hsent hchunks c hc
    have hs : hasContent s.data := hsent s (List.mem_cons_self s rest)
    have hrest : ∀ x ∈ rest, hasContent x.data :=
      fun x hx => hsent x (List.mem_cons_of_mem s hx)
    simp only [chunkGo] at hc
    by_cases hlen : chunks.length < 2
    · rw [if_pos hlen] at hc
      by_cases hbig : (cur ++ s ++ " ").length > 50
      · rw [if_pos hbig] at hc
        refine ih (chunks ++ [pyStrip (cur ++ s ++ " ")]) "" hrest ?_ c hc
        intro c' hc'
        rcases List.mem_append.mp hc' with h | h
        · exact hchunks c' h
        · rw [List.mem_singleton] at h
          subst h
          apply pyStrip_ne_empty
          obtain ⟨x, hx, hxws⟩ := hs
          refine ⟨x, ?_, hxws⟩
          simp only [String.data_append]
          exact List.mem_append.mpr (Or.inl (List.mem_append.mpr (Or.inr hx)))
      · rw [if_neg hbig] at hc
        exact ih chunks (cur ++ s ++ " ") hrest hchunks c hc
    · rw [if_neg hlen] at hc
      exact ih chunks (cur ++ s ++ " ") hrest hchunks c hc

/-! ### Claim theorems -/

/-- Claim C1: for every ordered list of at least two clip durations and a
fade duration, the stitcher's offsets satisfy `offset_0 = 0` and
`offset_i = offset_{i-1} + duration_{i-1} - fade_duration`; in particular
for durations `[10.0, 8.0, 6.0]` and `fade_duration = 0.5` the offsets are
`[0.0, 9.5, 17.0]`. -/
theorem C1_offset_recurrence :
    (∀ (ds : List ℚ) (f : ℚ), (stitchOffsets ds f).getD 0 0 = 0) ∧
    (∀ (ds : List ℚ) (f : ℚ) (i : ℕ), i + 1 < ds.length →
      (stitchOffsets ds f).getD (i + 1) 0 =
        (stitchOffsets ds f).getD i 0 + ds.getD i 0 - f) ∧
    stitchOffsets [10, 8, 6] (1 / 2) = [0, 19 / 2, 17] := by
  refine ⟨fun ds f => rfl, ?_, by norm_num [stitchOffsets, offsetLoop]⟩
  intro ds f i h
  match i with
  | 0 =>
    match ds, h with
    | d0 :: d1 :: ds', _ =>
      simp [stitchOffsets, List.dropLast_cons₂, offsetLoop]
  | j + 1 =>
    have h1 : j + 1 < ds.dropLast.length := by
      simp only [List.length_dropLast]
      omega
    have hrec := offsetLoop_getD_succ ds.dropLast 0 f j h1
    have h2 := getD_dropLast (0 : ℚ) ds (j + 1) h
    simp only [stitchOffsets, List.getD_cons_succ]
    rw [hrec, h2]

/-- Witness for C1 at durations `[10, 8, 6]`, fade `1/2`, `i = 1`. -/
theorem C1_offset_recurrence_witness :
    (stitchOffsets [10, 8, 6] (1 / 2)).getD 1 0 =
      (stitchOffsets [10, 8, 6] (1 / 2)).getD 0 0 +
        ([10, 8, 6] : List ℚ).getD 0 0 - 1 / 2 :=
  C1_offset_recurrence.2.1 [10, 8, 6] (1 / 2) 0 (by norm_num)

/-- Claim C2: the Story workflow always renders exactly 3 clips
`part1..part3`, performs a last-frame extraction into `frame{i+1}.png` right
after every segment except the final one (so exactly 2 extractions), and
feeds each extracted frame to the next segment's render as its source image;
with stubbed durations `[5, 5, 5]` and fade `0.5` the final stitch uses
offsets `[0, 4.5, 9]`. -/
theorem C2_story_pipeline :
    (∀ (script : String) (characterDesc : Option String) (durOf : String → ℚ),
      ∃ p1 p2 p3,
        cmd_story_events script characterDesc durOf =
          [Event.render p1 ("base_char.png") ("part1.mp4"),
           Event.extractFrame ("part1.mp4") ("frame1.png"),
           Event.render p2 ("frame1.png") ("part2.mp4"),
           Event.extractFrame ("part2.mp4") ("frame2.png"),
           Event.render p3 ("frame2.png") ("part3.mp4"),
           Event.stitch (stitchCommand [("part1.mp4"), ("part2.mp4"), ("part3.mp4")]
             [durOf ("part1.mp4"), durOf ("part2.mp4"), durOf ("part3.mp4")]
             (1 / 2) ("Mirage_Story_Final.mp4"))]) ∧
    (∀ (script : String) (characterDesc : Option String),
      (stitchCmds (cmd_story_events script characterDesc (fun _ => 5))).map
        StitchCmd.offsets = [[0, 9 / 2, 9]]) := by
  constructor
  · intro script characterDesc durOf
    obtain ⟨c1, c2, c3, hc⟩ := List.length_eq_three.mp (segment_length script)
    refine ⟨promptFor characterDesc c1, promptFor characterDesc c2,
      promptFor characterDesc c3, ?_⟩
    simp only [cmd_story_events, hc]
    rfl
  · intro script characterDesc
    obtain ⟨c1, c2, c3, hc⟩ := List.length_eq_three.mp (segment_length script)
    simp only [cmd_story_events, hc, segLoop]
    norm_num [stitchCmds, List.filterMap, stitchCommand, buildFilters,
      StitchCmd.offsets, offsetLoop]

/-- Claim C3: for at least two clips (with one probed duration per clip) the
stitcher emits the re-encoding branch, never the stream-copy branch, whose
filter graph chains exactly `N-1` video crossfades and `N-1` audio
crossfades; each consumes the previous chain's output label plus the next
raw input and produces the next label, video and audio are chained
independently over the same inputs with the same fade duration at each
transition, and the video offsets are the computed cumulative offsets. -/
theorem C3_filter_graph :
    ∀ (parts : List String) (durations : List ℚ) (fade : ℚ) (output : String),
      2 ≤ parts.length → durations.length = parts.length →
      ∃ vs aFs vMap aMap,
        stitchCommand parts durations fade output =
          StitchCmd.xfade parts vs aFs vMap aMap output ∧
        (stitchCommand parts durations fade output).isCopy = false ∧
        vs.length = parts.length - 1 ∧
        aFs.length = parts.length - 1 ∧
        vchainB ("0:v") 1 vs = true ∧
        achainB ("0:a") 1 aFs = true ∧
        vs.map XFade.dur = List.replicate (parts.length - 1) fade ∧
        aFs.map AXFade.d = List.replicate (parts.length - 1) fade ∧
        vs.map XFade.offset = offsetLoop 0 fade durations.dropLast := by
  intro parts durations fade output hlen hdur
  obtain ⟨h1, h2, h3, h4, h5, h6, h7⟩ :=
    buildFilters_spec durations.dropLast 1 ("0:v") ("0:a") 0 fade
  have hstitch :
      stitchCommand parts durations fade output =
        StitchCmd.xfade parts
          (buildFilters 1 ("0:v") ("0:a") 0 fade durations.dropLast).1
          (buildFilters 1 ("0:v") ("0:a") 0 fade durations.dropLast).2.1
          (buildFilters 1 ("0:v") ("0:a") 0 fade durations.dropLast).2.2.1
          (buildFilters 1 ("0:v") ("0:a") 0 fade durations.dropLast).2.2.2
          output := by
    match parts, hlen with
    | p1 :: p2 :: ps, _ => rfl
  have hdl : durations.dropLast.length = parts.length - 1 := by
    simp only [List.length_dropLast, hdur]
  rw [hdl] at h1 h2 h5 h6
  exact ⟨_, _, _, _, hstitch, by rw [hstitch]; rfl, h1, h2, h3, h4, h5, h6, h7⟩

/-- Witness for C3 with two clips of durations 3 and 4. -/
theorem C3_filter_graph_witness :
    ∃ vs aFs vMap aMap,
      stitchCommand [("p1"), ("p2")] [3, 4] (1 / 2) ("out") =
        StitchCmd.xfade [("p1"), ("p2")] vs aFs vMap aMap ("out") ∧
      (stitchCommand [("p1"), ("p2")] [3, 4] (1 / 2) ("out")).isCopy = false ∧
      vs.length = ([("p1"), ("p2")] : List String).length - 1 ∧
      aFs.length = ([("p1"), ("p2")] : List String).length - 1 ∧
      vchainB ("0:v") 1 vs = true ∧
      achainB ("0:a") 1 aFs = true ∧
      vs.map XFade.dur =
        List.replicate (([("p1"), ("p2")] : List String).length - 1) (1 / 2) ∧
      aFs.map AXFade.d =
        List.replicate (([("p1"), ("p2")] : List String).length - 1) (1 / 2) ∧
      vs.map XFade.offset = offsetLoop 0 (1 / 2) ([3, 4] : List ℚ).dropLast :=
  C3_filter_graph [("p1"), ("p2")] [3, 4] (1 / 2) ("out") (by decide) (by decide)

/-- Claim C4: for every input text the segmenter returns exactly 3 strings:
after greedy accumulation it pads with the placeholder `"..."` while fewer
than 3 chunks exist and truncates to exactly 3 if more exist. -/
theorem C4_segment_exactly_three :
    ∀ text : String, (segment text).length = 3 ∧
      segment text =
        (rawChunks text ++
          List.replicate (3 - (rawChunks text).length) ("...")).take 3 :=
  fun text => ⟨segment_length text, rfl⟩

/-- Claim C10: the Story workflow always reaches the stitch step with exactly
3 rendered clips, so the single-clip direct-copy branch (`-c copy`, no
crossfade filter) is unreachable: the one stitch command emitted is always
the crossfade branch, with a non-empty filter graph. -/
theorem C10_copy_branch_unreachable :
    ∀ (script : String) (characterDesc : Option String) (durOf : String → ℚ),
      (segLoop characterDesc 0 ("base_char.png") (segment script)).2.length = 3 ∧
      (stitchCmds (cmd_story_events script characterDesc durOf)).map
        StitchCmd.isCopy = [false] ∧
      ∃ vs aFs vMap aMap,
        stitchCmds (cmd_story_events script characterDesc durOf) =
          [StitchCmd.xfade [("part1.mp4"), ("part2.mp4"), ("part3.mp4")] vs aFs
            vMap aMap ("Mirage_Story_Final.mp4")] ∧
        vs.length = 2 := by
  intro script characterDesc durOf
  obtain ⟨c1, c2, c3, hc⟩ := List.length_eq_three.mp (segment_length script)
  obtain ⟨h1, _, _, _, _, _, _⟩ :=
    buildFilters_spec
      ([durOf ("part1.mp4"), durOf ("part2.mp4"), durOf ("part3.mp4")] :
        List ℚ).dropLast 1 ("0:v") ("0:a") 0 (1 / 2)
  have hev :
      stitchCmds (cmd_story_events script characterDesc durOf) =
        [stitchCommand [("part1.mp4"), ("part2.mp4"), ("part3.mp4")]
          [durOf ("part1.mp4"), durOf ("part2.mp4"), durOf ("part3.mp4")]
          (1 / 2) ("Mirage_Story_Final.mp4")] := by
    simp only [cmd_story_events, hc]
    rfl
  refine ⟨by rw [hc]; rfl, by rw [hev]; rfl, ?_⟩
  refine ⟨_, _, _, _, by rw [hev]; rfl, ?_⟩
  simpa using h1

/-- Counterexample to claim C5: for the stripped, nonempty input consisting
of two 51-character sentences (each closes a greedy chunk, leaving nothing
for the final accumulated chunk), the segmenter's output contains the empty
string, which is not the placeholder `"..."` — exactly the kind of input
`cmd_story` can produce, since it only guarantees the script is stripped and
nonempty. -/
theorem C5_counterexample :
    ("" : String) ∈ segment
      ("aaaaaaaaaaaaaaaaaaaaaaaaaaaaaaaaaaaaaaaaaaaaaaaaaa. bbbbbbbbbbbbbbbbbbbbbbbbbbbbbbbbbbbbbbbbbbbbbbbbbb.") ∧
    ("" : String) ≠ ("...") ∧
    pyStrip
      ("aaaaaaaaaaaaaaaaaaaaaaaaaaaaaaaaaaaaaaaaaaaaaaaaaa. bbbbbbbbbbbbbbbbbbbbbbbbbbbbbbbbbbbbbbbbbbbbbbbbbb.") =
      ("aaaaaaaaaaaaaaaaaaaaaaaaaaaaaaaaaaaaaaaaaaaaaaaaaa. bbbbbbbbbbbbbbbbbbbbbbbbbbbbbbbbbbbbbbbbbbbbbbbbbb.") := by
  refine ⟨?_, by decide, ?_⟩ <;> decide

/-- Claim C5 as amended: for every input text with no leading or trailing
whitespace (which is all `cmd_story` ever segments — parsed scripts are
stripped and the fallback script is stripped), no chunk in the segmenter's
output is the empty string except possibly the final accumulated chunk (the
remainder appended after the greedy loop, which is empty exactly when no
sentence text remains for it); padding placeholders are never empty. -/
theorem C5_amended_nonempty_chunks :
    ∀ text : String, pyStrip text = text →
      ∀ c ∈ segment text, c ≠ "" ∨ c = remainderChunk text := by
  intro text hstrip c hc
  by_cases hce : c = ""
  · right
    subst hce
    have hc' : ("" : String) ∈
        rawChunks text ++ List.replicate (3 - (rawChunks text).length) ("...") :=
      List.take_subset _ _ hc
    rcases List.mem_append.mp hc' with hraw | hpad
    · rcases List.mem_append.mp hraw with hclosed | hrem
      · exfalso
        by_cases ht0 : text = ""
        · subst ht0
          exact absurd hclosed (by decide)
        · exact chunkGo_closed (splitSentences text) [] ""
            (splitSentences_content hstrip ht0) (by simp) ("") hclosed rfl
      · rw [List.mem_singleton] at hrem
        exact hrem
    · exfalso
      have heq := List.eq_of_mem_replicate hpad
      exact absurd heq (by decide)
  · left
    exact hce

/-- Witness for C5 (amended) at the stripped input `"Hi."`, whose first
chunk `"Hi."` is indeed nonempty. -/
theorem C5_amended_nonempty_chunks_witness :
    ("Hi." : String) ≠ "" ∨ ("Hi." : String) = remainderChunk ("Hi.") :=
  C5_amended_nonempty_chunks ("Hi.") (by decide) ("Hi.") (by decide)

/-- Claim C6: with a credential present, whenever anything inside the
planner's try block raises (network call, response-shape access, JSON
parse), `generate_story_plan` returns — it does not propagate the
exception — a list of exactly one entry whose `voice_direction` is
`"Apologetic robot"` and whose `narration` and `visual_prompt` both mention
the input topic. -/
theorem C6_planner_fallback :
    ∀ (apiKey topic : String),
      generate_story_plan (some apiKey) topic (Except.error ()) =
        Except.ok (fallbackPlan topic) ∧
      (∃ entry, fallbackPlan topic = JValue.jarr [entry] ∧
        jField entry ("voice_direction") = some (JValue.jstr ("Apologetic robot")) ∧
        (∃ pre post, jField entry ("narration") =
          some (JValue.jstr (pre ++ topic ++ post))) ∧
        (∃ pre post, jField entry ("visual_prompt") =
          some (JValue.jstr (pre ++ topic ++ post)))) := by
  intro apiKey topic
  exact ⟨rfl, ⟨_, rfl, rfl, ⟨_, _, rfl⟩, ⟨_, _, rfl⟩⟩⟩

/-- Counterexample to claim C7: when the model's response text is the valid
JSON `[]`, `json.loads` succeeds and `generate_story_plan` returns the empty
plan unchanged — an empty list, which is neither a sequence of well-formed
entries ("never empty") nor the single synthetic fallback entry. -/
theorem C7_counterexample :
    generate_story_plan (some ("k")) ("t") (Except.ok (JValue.jarr [])) =
      Except.ok (JValue.jarr []) ∧
    JValue.jarr [] ≠ fallbackPlan ("t") := by
  refine ⟨rfl, ?_⟩
  intro hcontra
  simp [fallbackPlan] at hcontra

/-- Claim C7 as amended: with a credential present the planner never raises;
it returns either exactly the JSON value parsed from the model response —
unvalidated, so possibly empty or malformed — or, on any failure, the single
synthetic fallback entry, which is well-formed. -/
theorem C7_amended_planner_result :
    ∀ (apiKey topic : String) (tryResult : Except Unit JValue),
      generate_story_plan (some apiKey) topic tryResult =
        Except.ok
          (match tryResult with
           | Except.ok v => v
           | Except.error _ => fallbackPlan topic) ∧
      (∃ entry, fallbackPlan topic = JValue.jarr [entry] ∧ wellFormedEntry entry) := by
  intro apiKey topic tryResult
  refine ⟨?_, ⟨_, rfl, ⟨_, rfl⟩, ⟨_, rfl⟩, ⟨_, rfl⟩⟩⟩
  cases tryResult <;> rfl

/-- Claim C8: whenever the duration probe fails in any way — the probing
tool errors out (e.g. missing or corrupt file) or its output fails numeric
parsing — `get_audio_duration` returns exactly 60.0 and does not raise
(it is a total function). -/
theorem C8_probe_fallback :
    ∀ (pyFloat : String → Option ℚ) (outcome : ProbeOutcome),
      (outcome = ProbeOutcome.toolError ∨
        ∃ s, outcome = ProbeOutcome.probed s ∧ pyFloat (pyStrip s) = none) →
      get_audio_duration pyFloat outcome = 60 := by
  intro pyFloat outcome h
  rcases h with h | ⟨s, rfl, hp⟩
  · rw [h]; rfl
  · simp [get_audio_duration, hp]

/-- Witness for C8: a failing probe (tool error) yields 60. -/
theorem C8_probe_fallback_witness :
    get_audio_duration (fun _ => none) ProbeOutcome.toolError = 60 :=
  C8_probe_fallback (fun _ => none) ProbeOutcome.toolError (Or.inl rfl)

/-- Claim C9: for every command exiting non-zero, `run_command` signals
failure; with `quiet` (suppressed output) the failure carries the child's
captured stdout and stderr together, and without it the child inherited the
caller's streams, so the failure carries no captured buffers. -/
theorem C9_gateway_failure :
    ∀ (returncode : ℤ) (childOut childErr : String), returncode ≠ 0 →
      run_command true returncode childOut childErr =
        Except.error ⟨returncode, some childOut, some childErr⟩ ∧
      run_command false returncode childOut childErr =
        Except.error ⟨returncode, none, none⟩ := by
  intro rc childOut childErr h
  constructor <;> simp [run_command, h]

/-- Witness for C9 at exit code 1. -/
theorem C9_gateway_failure_witness :
    run_command true 1 ("o") ("e") =
      Except.error ⟨1, some ("o"), some ("e")⟩ ∧
    run_command false 1 ("o") ("e") = Except.error ⟨1, none, none⟩ :=
  C9_gateway_failure 1 ("o") ("e") (by decide)

end Mirage

-- Concrete sanity checks of the embedding against the Python reference
-- behaviour of re.split, the greedy chunking, padding and the offsets.
example : Mirage.splitSentences ("Hi there. All good! Yes? End") =
    [("Hi there."), ("All good!"), ("Yes?"), ("End")] := by decide

example : Mirage.segment ("One. Two.") = [("One. Two."), ("..."), ("...")] := by decide

example : Mirage.splitSentences ("A.  B!   C? D. E. F.") =
    [("A."), ("B!"), ("C?"), ("D."), ("E."), ("F.")] := by decide

example : Mirage.splitSentences ("x. ") = [("x."), ("")] := by decide

example : Mirage.segment ("") = [(""), ("..."), ("...")] := by decide

example : Mirage.segment ("   ") = [(""), ("..."), ("...")] := by decide

example : Mirage.stitchOffsets [10, 8, 6] (1/2) = [0, 19/2, 17] := by
  norm_num [Mirage.stitchOffsets, Mirage.offsetLoop]
